import Mathlib

/-!
Shallow embedding of the spect_rs core (cut.rs, data_blob.rs, error.rs,
histogram.rs, manager.rs).  Machine `f32` values are modelled as exact
rationals `ℚ`; `u16` counters as `ℕ`; `Uuid` identifiers as `ℕ`;
`FxHashMap` as an association list with key-overwriting insertion.
Rust's `Result` is modelled by the inductive `Spect.Result`.
For one claim about floating-point rounding an additional, explicitly
IEEE-754-faithful model of the binning arithmetic is given
(`f32round`, `AxisSpec.get_bin_f32`).
-/

namespace Spect

/-- Rust `Result<T, E>` (error second, as in the source). -/
inductive Result (ε α : Type) where
  | ok : α → Result ε α
  | err : ε → Result ε α
deriving DecidableEq, Repr

/-- Errors of histogram.rs (`HistogramError`). -/
inductive HistogramError where
  | WrongDimensions : HistogramError
  | OutOfBounds : ℚ → ℚ → ℚ → HistogramError
  | BadAxis : String → ℕ → ℚ → ℚ → HistogramError
deriving DecidableEq, Repr

/-- Errors of cut.rs (`CutError`). -/
inductive CutError where
  | Invalid1D : ℚ → ℚ → CutError
  | Invalid2D : CutError
  | Unclosed2D : CutError
  | NoReferenceHistogram : ℕ → CutError
deriving DecidableEq, Repr

/-- Errors of manager.rs (`ResourceError`); `CutFailed` is the `#[from]`
conversion of a `CutError`. -/
inductive ResourceError where
  | InvalidHistogramID : ℕ → ResourceError
  | CutFailed : CutError → ResourceError
deriving DecidableEq, Repr

/-- data_blob.rs `DataBlob`: a record mapping variable names to values. -/
structure DataBlob where
  map : List (String × ℚ)
deriving DecidableEq, Repr

/-- `DataBlob::find`. -/
def DataBlob.find (b : DataBlob) (v : String) : Option ℚ :=
  List.lookup v b.map

/-- histogram.rs `AxisSpec` (field `variable` is spelt `var` since
`variable` is a Lean keyword). -/
structure AxisSpec where
  var : String
  title : String
  bins : ℕ
  minimum : ℚ
  maximum : ℚ
deriving DecidableEq, Repr

/-- `AxisSpec::new`. -/
def AxisSpec.new (v t : String) (bins : ℕ) (mn mx : ℚ) :
    Result HistogramError AxisSpec :=
  if mn ≥ mx ∨ bins < 1 then .err (.BadAxis t bins mn mx)
  else .ok ⟨v, t, bins, mn, mx⟩

/-- `AxisSpec::get_bin_width`. -/
def AxisSpec.get_bin_width (a : AxisSpec) : ℚ :=
  (a.maximum - a.minimum) / (a.bins : ℚ)

/-- `AxisSpec::get_bin` (exact arithmetic; the `as usize` cast of the
nonnegative floor is `Int.toNat`). -/
def AxisSpec.get_bin (a : AxisSpec) (value : ℚ) : Result HistogramError ℕ :=
  if value < a.minimum ∨ value ≥ a.maximum then
    .err (.OutOfBounds a.minimum a.maximum value)
  else
    .ok (Int.toNat ⌊(value - a.minimum) / a.get_bin_width⌋)

/-- histogram.rs `HistSpec`. -/
structure HistSpec where
  id : ℕ
  name : String
  title : String
  x_axis : AxisSpec
  y_axis : Option AxisSpec
  cuts_to_draw : List ℕ
  cuts_to_check : List ℕ
deriving DecidableEq, Repr

/-- histogram.rs `Histogram`: a spec plus the dense count array. -/
structure Histogram where
  spec : HistSpec
  data : List ℕ
deriving DecidableEq, Repr

/-- `Histogram::new`: allocates `x_axis.bins` (1-D) or
`x_axis.bins * y_axis.bins` (2-D) zeroed counters. -/
def Histogram.new (spec : HistSpec) : Histogram :=
  match spec.y_axis with
  | none => ⟨spec, List.replicate spec.x_axis.bins 0⟩
  | some ya => ⟨spec, List.replicate (spec.x_axis.bins * ya.bins) 0⟩

/-- `Histogram::fill`: returns the Rust return value together with the
post-state (the source mutates `self`; failure paths do not touch
`data`).  The increment `self.data[bin] += 1` is modelled by
`List.set`. -/
def Histogram.fill (g : Histogram) (x_value : ℚ) (y_value : Option ℚ) :
    Result HistogramError ℕ × Histogram :=
  match g.spec.x_axis.get_bin x_value with
  | .err e => (.err e, g)
  | .ok bin =>
    match y_value with
    | some y =>
      match g.spec.y_axis with
      | none => (.err .WrongDimensions, g)
      | some y_axis =>
        match y_axis.get_bin y with
        | .err e => (.err e, g)
        | .ok bin_y =>
          let b := bin * bin_y
          (.ok b, ⟨g.spec, g.data.set b (g.data.getD b 0 + 1)⟩)
    | none =>
      if g.spec.y_axis.isSome then (.err .WrongDimensions, g)
      else (.ok bin, ⟨g.spec, g.data.set bin (g.data.getD bin 0 + 1)⟩)

/-- cut.rs `CutSpec`. -/
structure CutSpec where
  id : ℕ
  name : String
  x_variable : String
  y_variable : Option String
deriving DecidableEq, Repr

/-- cut.rs `Cut1D`: a range cut with cached validity. -/
structure Cut1D where
  spec : CutSpec
  low : ℚ
  high : ℚ
  is_valid : Bool
deriving DecidableEq, Repr

/-- `Cut1D::new`: rejects `low > high || high == low`. -/
def Cut1D.new (spec : CutSpec) (low high : ℚ) : Result CutError Cut1D :=
  if low > high ∨ high = low then .err (.Invalid1D low high)
  else .ok ⟨spec, low, high, false⟩

/-- `Cut1D::is_inside`: caches `x > low && x < high`, or `false` when the
variable is absent. -/
def Cut1D.is_inside (c : Cut1D) (blob : DataBlob) : Cut1D :=
  { c with is_valid :=
      match blob.find c.spec.x_variable with
      | some x => decide (x > c.low) && decide (x < c.high)
      | none => false }

/-- cut.rs `Cut2D`: a polygon cut with cached validity. -/
structure Cut2D where
  spec : CutSpec
  x_values : List ℚ
  y_values : List ℚ
  is_valid : Bool
deriving DecidableEq, Repr

/-- `Cut2D::new`. -/
def Cut2D.new (spec : CutSpec) (x_values y_values : List ℚ) :
    Result CutError Cut2D :=
  if spec.y_variable = none ∨ x_values.length ≠ y_values.length ∨
      x_values.length < 3 then
    .err .Invalid2D
  else if x_values.head? ≠ x_values.getLast? ∨
      y_values.head? ≠ y_values.getLast? then
    .err .Unclosed2D
  else
    .ok ⟨spec, x_values, y_values, false⟩

/-- Edge list of the polygon loop: iteration `idx` of the Rust
`for idx in 0..(len - 1)` sees `((x[idx], y[idx]), (x[idx+1], y[idx+1]))`. -/
def edgePairs (xs ys : List ℚ) : List ((ℚ × ℚ) × (ℚ × ℚ)) :=
  List.zip (List.zip xs ys) (List.zip (xs.drop 1) (ys.drop 1))

/-- Cross-product term `slope` of one loop iteration of
`Cut2D::is_inside`. -/
def slopeOf (x y : ℚ) (e : (ℚ × ℚ) × (ℚ × ℚ)) : ℚ :=
  (x - e.1.1) * (e.2.2 - e.1.2) - (e.2.1 - e.1.1) * (y - e.1.2)

/-- The loop body of `Cut2D::is_inside`: early `return true` on a vertex
hit or a zero slope, otherwise toggle the accumulator when
`(slope < 0) != (y_next < y_cur)`. -/
def polyLoop (x y : ℚ) : List ((ℚ × ℚ) × (ℚ × ℚ)) → Bool → Bool
  | [], acc => acc
  | e :: rest, acc =>
    if x = e.1.1 ∧ y = e.1.2 then true
    else if slopeOf x y e = 0 then true
    else if decide (slopeOf x y e < 0) != decide (e.2.2 < e.1.2) then
      polyLoop x y rest (!acc)
    else
      polyLoop x y rest acc

/-- `Cut2D::is_inside`: sets validity to `false`, then runs the even-odd
loop when the spec's `y_variable` and both record variables are
present. -/
def Cut2D.is_inside (c : Cut2D) (blob : DataBlob) : Cut2D :=
  { c with is_valid :=
      match c.spec.y_variable with
      | none => false
      | some y_name =>
        match blob.find c.spec.x_variable with
        | none => false
        | some x =>
          match blob.find y_name with
          | none => false
          | some y => polyLoop x y (edgePairs c.x_values c.y_values) false }

/-- cut.rs `dyn Cut`: the closed set of implementors. -/
inductive Cut where
  | one : Cut1D → Cut
  | two : Cut2D → Cut
deriving DecidableEq, Repr

/-- Dynamic dispatch of `Cut::is_inside`. -/
def Cut.is_inside (c : Cut) (blob : DataBlob) : Cut :=
  match c with
  | .one c1 => .one (c1.is_inside blob)
  | .two c2 => .two (c2.is_inside blob)

/-- Dynamic dispatch of `Cut::is_valid`. -/
def Cut.is_valid (c : Cut) : Bool :=
  match c with
  | .one c1 => c1.is_valid
  | .two c2 => c2.is_valid

/-- Dynamic dispatch of `Cut::get_spec`. -/
def Cut.get_spec (c : Cut) : CutSpec :=
  match c with
  | .one c1 => c1.spec
  | .two c2 => c2.spec

/-- Key-overwriting insertion, the observable behaviour of
`FxHashMap::insert`. -/
def mapInsert {α : Type} (k : ℕ) (v : α) (l : List (ℕ × α)) :
    List (ℕ × α) :=
  (k, v) :: l.filter (fun p => p.1 ≠ k)

/-- manager.rs `ResourceManager`: histograms and cuts keyed by id. -/
structure ResourceManager where
  histograms : List (ℕ × Histogram)
  cuts : List (ℕ × Cut)
deriving DecidableEq, Repr

/-- `ResourceManager::new`. -/
def ResourceManager.new : ResourceManager := ⟨[], []⟩

/-- `ResourceManager::add_histogram` (ignoring the returned length). -/
def ResourceManager.add_histogram (m : ResourceManager) (spec : HistSpec) :
    ResourceManager :=
  { m with histograms := mapInsert spec.id (Histogram.new spec) m.histograms }

/-- Helper for `get_mut` followed by `cuts_to_draw.push(spec.id)`. -/
def pushDraw (cid : ℕ) (g : Histogram) : Histogram :=
  ⟨{ g.spec with cuts_to_draw := g.spec.cuts_to_draw ++ [cid] }, g.data⟩

/-- Modify the histogram stored under key `hid` (the effect of
`histograms.get_mut(hid)` plus a mutation). -/
def modifyHist (hid : ℕ) (f : Histogram → Histogram)
    (l : List (ℕ × Histogram)) : List (ℕ × Histogram) :=
  l.map (fun p => if p.1 = hid then (p.1, f p.2) else p)

/-- `ResourceManager::add_cut_1d`: note the source appends to the target
histogram's `cuts_to_draw` BEFORE constructing the cut, so a
construction failure leaves that append behind. -/
def ResourceManager.add_cut_1d (m : ResourceManager) (spec : CutSpec)
    (low high : ℚ) (hid : ℕ) : Result ResourceError Unit × ResourceManager :=
  match List.lookup hid m.histograms with
  | none => (.err (.CutFailed (.NoReferenceHistogram hid)), m)
  | some _ =>
    let m1 : ResourceManager :=
      { m with histograms := modifyHist hid (pushDraw spec.id) m.histograms }
    match Cut1D.new spec low high with
    | .err e => (.err (.CutFailed e), m1)
    | .ok c => (.ok (), { m1 with cuts := mapInsert spec.id (.one c) m1.cuts })

/-- `ResourceManager::add_cut_2d`, same structure as `add_cut_1d`. -/
def ResourceManager.add_cut_2d (m : ResourceManager) (spec : CutSpec)
    (x_values y_values : List ℚ) (hid : ℕ) :
    Result ResourceError Unit × ResourceManager :=
  match List.lookup hid m.histograms with
  | none => (.err (.CutFailed (.NoReferenceHistogram hid)), m)
  | some _ =>
    let m1 : ResourceManager :=
      { m with histograms := modifyHist hid (pushDraw spec.id) m.histograms }
    match Cut2D.new spec x_values y_values with
    | .err e => (.err (.CutFailed e), m1)
    | .ok c => (.ok (), { m1 with cuts := mapInsert spec.id (.two c) m1.cuts })

/-- The gating loop of `ResourceManager::update`: all checks pass unless
some listed id resolves to a registered cut that is not valid; a missing
id is skipped. -/
def checkCuts (cuts : List (ℕ × Cut)) : List ℕ → Bool
  | [] => true
  | cid :: rest =>
    match List.lookup cid cuts with
    | some c => if c.is_valid then checkCuts cuts rest else false
    | none => checkCuts cuts rest

/-- Per-histogram body of `ResourceManager::update` (after cut
evaluation): gate, look up the axis variables, fill; the printed fill
result is discarded and a fill error leaves the histogram as `fill`
left it (unchanged). -/
def updateGram (cuts : List (ℕ × Cut)) (data : DataBlob) (g : Histogram) :
    Histogram :=
  if checkCuts cuts g.spec.cuts_to_check then
    match data.find g.spec.x_axis.var with
    | none => g
    | some x_val =>
      match g.spec.y_axis with
      | some y_axis =>
        match data.find y_axis.var with
        | none => g
        | some y_val => (g.fill x_val (some y_val)).2
      | none => (g.fill x_val none).2
  else g

/-- `ResourceManager::update` (its Rust return value is always `Ok(())`,
so only the state transition is modelled): evaluate every cut, then
process every histogram. -/
def ResourceManager.update (m : ResourceManager) (data : DataBlob) :
    ResourceManager :=
  let cuts := m.cuts.map (fun p => (p.1, p.2.is_inside data))
  ⟨m.histograms.map (fun p => (p.1, updateGram cuts data p.2)), cuts⟩

/-- Fuel-bounded most-significant-bit position: `msb fuel n` is
`⌊log2 n⌋` for `1 ≤ n < 2^fuel` (and `0` for `n = 0`). -/
def msb (fuel : ℕ) (n : ℕ) : ℕ :=
  match fuel with
  | 0 => 0
  | f + 1 => if n < 2 then 0 else msb f (n / 2) + 1

/-- Round-to-nearest-even at 24 significand bits: the IEEE-754 binary32
rounding of an exact rational, for magnitudes in the normal range
(roughly `2^(-126)` to `2^127`; overflow and subnormals are outside the
modelled domain of the claims using this). -/
def f32round (q : ℚ) : ℚ :=
  if q = 0 then 0
  else
    let a := |q|
    let k : ℕ := msb 400 (Int.toNat ⌊a * (2 : ℚ) ^ (150 : ℕ)⌋)
    let t : ℚ := a * (2 : ℚ) ^ (173 : ℕ) / (2 : ℚ) ^ k
    let n0 : ℤ := ⌊t⌋
    let frac : ℚ := t - (n0 : ℚ)
    let mth : ℤ :=
      if frac < 1 / 2 then n0
      else if 1 / 2 < frac then n0 + 1
      else if n0 % 2 = 0 then n0 else n0 + 1
    (if q < 0 then -1 else 1) * (mth : ℚ) * (2 : ℚ) ^ k / (2 : ℚ) ^ (173 : ℕ)

/-- Binary32 subtraction: exact difference, then one rounding. -/
def f32sub (x y : ℚ) : ℚ := f32round (x - y)

/-- Binary32 division: exact quotient, then one rounding. -/
def f32div (x y : ℚ) : ℚ := f32round (x / y)

/-- `AxisSpec::get_bin` under faithful binary32 arithmetic: every
intermediate of `(value - minimum) / ((maximum - minimum) / bins)` is
rounded exactly as the hardware rounds it (`f32::floor` of a
nonnegative value and the comparisons are exact). -/
def AxisSpec.get_bin_f32 (a : AxisSpec) (value : ℚ) :
    Result HistogramError ℕ :=
  if value < a.minimum ∨ value ≥ a.maximum then
    .err (.OutOfBounds a.minimum a.maximum value)
  else
    .ok (Int.toNat
      ⌊f32div (f32sub value a.minimum)
        (f32div (f32sub a.maximum a.minimum) (f32round (a.bins : ℚ)))⌋)

/-- A concrete valid axis, used by witnesses. -/
def axis600 : AxisSpec := ⟨"var", "var", 600, 0, 600⟩

/-- A concrete range cut over `(0, 10)`, used by witnesses. -/
def cutW6 : Cut1D := ⟨⟨1, "c", "x", none⟩, 0, 10, false⟩

/-- Concrete cut for the C1 witness: a range cut on variable `"x"`. -/
def cutC1 : Cut := .one ⟨⟨1, "c", "x", none⟩, 0, 10, true⟩

/-- Concrete histogram for the C1 witness: gated by cut `1`, its own
variable `"v"` present and in range in the witness record. -/
def histC1 : Histogram :=
  ⟨⟨7, "h", "h", ⟨"v", "t", 10, 0, 10⟩, none, [], [1]⟩, List.replicate 10 0⟩

/-- Concrete registry for the C1 witness. -/
def mgrC1 : ResourceManager := ⟨[(7, histC1)], [(1, cutC1)]⟩

/-- Concrete 2-D histogram for the C3 witness: two 3-bin axes over
`[0, 3)`. -/
def histC3 : Histogram :=
  ⟨⟨2, "h2", "h2", ⟨"v", "t", 3, 0, 3⟩, some ⟨"w", "t", 3, 0, 3⟩, [], []⟩,
    List.replicate 9 0⟩

/-- Concrete 1-D histogram for the C4 witness: 3 bins over `[0, 3)`. -/
def histC4 : Histogram :=
  ⟨⟨4, "h", "h", ⟨"v", "t", 3, 0, 3⟩, none, [], []⟩, [0, 0, 0]⟩

/-- The axis `bins = 3`, range `[0, 7)` — valid by construction. -/
def axis7 : AxisSpec := ⟨"v", "t", 3, 0, 7⟩

/-- The largest binary32 value below `7`, namely `7 - 2^(-21)`. -/
def sevenPred : ℚ := 14680063 / 2097152

/-- Histogram registered under id 10 for the C5 development. -/
def histC5 : Histogram :=
  ⟨⟨10, "h", "h", ⟨"v", "t", 3, 0, 3⟩, none, [], []⟩, [0, 0, 0]⟩

/-- Registry holding only `histC5`, with no cuts. -/
def mgrC5 : ResourceManager := ⟨[(10, histC5)], []⟩

/-- Predicate of the spec's early-exit steps 2 and 4 (§4.3): the test
point coincides with the edge's first vertex, or the cross-product term
is exactly zero. -/
def vertexOrEdgeHit (x y : ℚ) (e : (ℚ × ℚ) × (ℚ × ℚ)) : Bool :=
  decide (x = e.1.1 ∧ y = e.1.2) || decide (slopeOf x y e = 0)

/-- Predicate of the spec's step 5 (§4.3): the edge toggles the parity
when `(slope < 0)` XOR `(y_next < y_cur)`. -/
def edgeToggles (x y : ℚ) (e : (ℚ × ℚ) × (ℚ × ℚ)) : Bool :=
  decide (slopeOf x y e < 0) != decide (e.2.2 < e.1.2)

/-- Formalisation of the even-odd algorithm exactly as worded in spec
§4.3: immediately inside on any vertex or zero-slope hit, otherwise the
parity of the toggling edges. -/
def specEvenOdd (x y : ℚ) (xs ys : List ℚ) : Bool :=
  List.any (edgePairs xs ys) (vertexOrEdgeHit x y) ||
    ((List.countP (edgeToggles x y) (edgePairs xs ys)) % 2 == 1)

/-- The closed unit square polygon cut of spec §8, on variables `"x"`
and `"y"`. -/
def squareCut : Cut2D :=
  ⟨⟨9, "sq", "x", some "y"⟩, [0, 0, 1, 1, 0], [0, 1, 1, 0, 0], false⟩

/-- Record at the square's interior point `(1/2, 1/2)`. -/
def blobHalf : DataBlob := ⟨[("x", 1/2), ("y", 1/2)]⟩

/-- Record at the square's vertex `(0, 0)`. -/
def blobOrigin : DataBlob := ⟨[("x", 0), ("y", 0)]⟩

/-- Record at the exterior point `(2, 2)`. -/
def blobTwoTwo : DataBlob := ⟨[("x", 2), ("y", 2)]⟩

/-! Helper lemmas shared by several developments below.  The Batteries
rational-arithmetic primitives are sealed against unfolding by default;
making them semireducible lets `decide` evaluate the embedded operations
on concrete inputs. -/

attribute [local semireducible] Rat.mul Rat.inv Rat.sub Rat.add

/-- Positivity of the bin width of a valid axis. -/
lemma get_bin_width_pos (a : AxisSpec) (h1 : a.minimum < a.maximum)
    (h2 : 1 ≤ a.bins) : 0 < a.get_bin_width := by
  have hb : (0 : ℚ) < (a.bins : ℚ) := by exact_mod_cast h2
  exact div_pos (sub_pos.2 h1) hb

/-- A successful `get_bin` on a valid axis yields an index below `bins`
(exact arithmetic). -/
lemma get_bin_lt_bins (a : AxisSpec) (v : ℚ) (b : ℕ)
    (h1 : a.minimum < a.maximum) (h2 : 1 ≤ a.bins)
    (hb : a.get_bin v = .ok b) : b < a.bins := by
  unfold AxisSpec.get_bin at hb
  by_cases hc : v < a.minimum ∨ v ≥ a.maximum
  · simp [hc] at hb
  · simp only [hc, if_false, Result.ok.injEq] at hb
    push_neg at hc
    obtain ⟨hvmin, hvmax⟩ := hc
    have hbq : (0 : ℚ) < (a.bins : ℚ) := by exact_mod_cast h2
    have hsub : (0 : ℚ) < a.maximum - a.minimum := sub_pos.2 h1
    have hq : (v - a.minimum) / a.get_bin_width < (a.bins : ℚ) := by
      rw [AxisSpec.get_bin_width, div_div_eq_mul_div, div_lt_iff₀ hsub]
      have hlt : v - a.minimum < a.maximum - a.minimum := by linarith
      calc (v - a.minimum) * (a.bins : ℚ)
          < (a.maximum - a.minimum) * (a.bins : ℚ) :=
            mul_lt_mul_of_pos_right hlt hbq
        _ = (a.bins : ℚ) * (a.maximum - a.minimum) := mul_comm _ _
    have hfl : ⌊(v - a.minimum) / a.get_bin_width⌋ < (a.bins : ℤ) :=
      Int.floor_lt.2 (by push_cast; exact hq)
    rw [← hb]
    exact (Int.toNat_lt' (by omega)).2 hfl

/-- A successful `get_bin` on a valid axis computes the mathematical
floor (which is nonnegative in range). -/
lemma get_bin_ok_val (a : AxisSpec) (v : ℚ)
    (h1 : a.minimum < a.maximum) (h2 : 1 ≤ a.bins)
    (hvmin : a.minimum ≤ v) (hvmax : v < a.maximum) :
    ∃ b : ℕ, a.get_bin v = .ok b ∧
      (b : ℤ) = ⌊(v - a.minimum) / ((a.maximum - a.minimum) / (a.bins : ℚ))⌋ := by
  have hc : ¬ (v < a.minimum ∨ v ≥ a.maximum) := by
    push_neg
    exact ⟨hvmin, hvmax⟩
  have hw := get_bin_width_pos a h1 h2
  have hq : (0 : ℚ) ≤ (v - a.minimum) / a.get_bin_width :=
    div_nonneg (sub_nonneg.2 hvmin) (le_of_lt hw)
  refine ⟨Int.toNat ⌊(v - a.minimum) / a.get_bin_width⌋, ?_, ?_⟩
  · unfold AxisSpec.get_bin
    simp [hc]
  · rw [Int.toNat_of_nonneg (Int.floor_nonneg.2 hq)]
    rfl

/-- C2 theorem: `get_bin` on a valid axis fails with `OutOfBounds`
exactly outside `[minimum, maximum)`, returns the floor index inside,
and maps `minimum` to bin `0`. -/
theorem get_bin_spec (a : AxisSpec) (h1 : a.minimum < a.maximum)
    (h2 : 1 ≤ a.bins) (value : ℚ) :
    (a.get_bin value = .err (.OutOfBounds a.minimum a.maximum value) ↔
      (value < a.minimum ∨ value ≥ a.maximum))
    ∧ (a.minimum ≤ value → value < a.maximum →
        ∃ b : ℕ, a.get_bin value = .ok b ∧
          (b : ℤ) =
            ⌊(value - a.minimum) / ((a.maximum - a.minimum) / (a.bins : ℚ))⌋)
    ∧ a.get_bin a.minimum = .ok 0 := by
  refine ⟨?_, fun hlo hhi => get_bin_ok_val a value h1 h2 hlo hhi, ?_⟩
  · constructor
    · intro h
      by_contra hc
      unfold AxisSpec.get_bin at h
      simp [hc] at h
    · intro hc
      unfold AxisSpec.get_bin
      simp [hc]
  · have hc : ¬ (a.minimum < a.minimum ∨ a.minimum ≥ a.maximum) := by
      push_neg
      exact ⟨le_refl _, h1⟩
    unfold AxisSpec.get_bin
    rw [if_neg hc]
    simp

/-- Witness for the C2 theorem at the axis of the repository's own test
(`bins = 600`, range `[0, 600)`). -/
theorem get_bin_spec_app : axis600.get_bin axis600.minimum = .ok 0 :=
  (get_bin_spec axis600 (by norm_num [axis600]) (by norm_num [axis600])
    0).2.2

/-- C6 theorem: after `Cut1D::is_inside`, the cached validity holds
exactly when the variable is present with a value strictly between the
bounds; an absent variable forces validity `false`. -/
theorem cut1d_is_inside_spec (c : Cut1D) (blob : DataBlob) :
    ((c.is_inside blob).is_valid = true ↔
      ∃ v, blob.find c.spec.x_variable = some v ∧ c.low < v ∧ v < c.high)
    ∧ (blob.find c.spec.x_variable = none →
        (c.is_inside blob).is_valid = false) := by
  constructor
  · unfold Cut1D.is_inside
    rcases hf : blob.find c.spec.x_variable with _ | v
    · simp
    · simp [gt_iff_lt]
  · intro hf
    unfold Cut1D.is_inside
    simp [hf]

/-- Witness for the C6 theorem: value `5` is valid, a record without the
variable is invalid. -/
theorem cut1d_is_inside_spec_app :
    (cutW6.is_inside ⟨[("x", 5)]⟩).is_valid = true
    ∧ (cutW6.is_inside ⟨[("y", 5)]⟩).is_valid = false :=
  ⟨(cut1d_is_inside_spec cutW6 ⟨[("x", 5)]⟩).1.mpr
      ⟨5, by decide, by norm_num [cutW6], by norm_num [cutW6]⟩,
    (cut1d_is_inside_spec cutW6 ⟨[("y", 5)]⟩).2 (by decide)⟩

/-- C8 theorem: `Cut1D::new` succeeds exactly when `low < high`, fails
with `Invalid1D` otherwise, and every constructed cut satisfies the
invariant. -/
theorem cut1d_new_spec (spec : CutSpec) (low high : ℚ) :
    ((∃ c, Cut1D.new spec low high = .ok c) ↔ low < high)
    ∧ (¬ low < high →
        Cut1D.new spec low high = .err (.Invalid1D low high))
    ∧ (∀ c, Cut1D.new spec low high = .ok c → c.low < c.high) := by
  have hcond : (low > high ∨ high = low) ↔ ¬ low < high := by
    constructor
    · rintro (h | h)
      · exact not_lt.2 (le_of_lt h)
      · exact not_lt.2 (le_of_eq h)
    · intro h
      rcases lt_trichotomy low high with h1 | h1 | h1
      · exact absurd h1 h
      · exact Or.inr h1.symm
      · exact Or.inl h1
  refine ⟨?_, ?_, ?_⟩
  · constructor
    · rintro ⟨c, hc⟩
      by_contra hlt
      unfold Cut1D.new at hc
      rw [if_pos (hcond.2 hlt)] at hc
      cases hc
    · intro hlt
      refine ⟨⟨spec, low, high, false⟩, ?_⟩
      unfold Cut1D.new
      rw [if_neg (fun h => (hcond.1 h) hlt)]
  · intro hlt
    unfold Cut1D.new
    rw [if_pos (hcond.2 hlt)]
  · intro c hc
    by_cases hlt : low < high
    · unfold Cut1D.new at hc
      rw [if_neg (fun h => (hcond.1 h) hlt)] at hc
      cases hc
      exact hlt
    · unfold Cut1D.new at hc
      rw [if_pos (hcond.2 hlt)] at hc
      cases hc

/-- Witness for the C8 theorem at `low = 0 < 10 = high`. -/
theorem cut1d_new_spec_app : ∃ c, Cut1D.new ⟨1, "c", "x", none⟩ 0 10 = .ok c :=
  (cut1d_new_spec ⟨1, "c", "x", none⟩ 0 10).1.mpr (by norm_num)

/-- C9 theorem: `Cut2D::new` succeeds exactly when the spec has a
`y_variable`, the vertex lists have equal length at least 3, and both
lists are closed; a constructed cut starts with validity `false`. -/
theorem cut2d_new_spec (spec : CutSpec) (xs ys : List ℚ) :
    ((∃ c, Cut2D.new spec xs ys = .ok c) ↔
      (spec.y_variable ≠ none ∧ xs.length = ys.length ∧ 3 ≤ xs.length ∧
        xs.head? = xs.getLast? ∧ ys.head? = ys.getLast?))
    ∧ (∀ c, Cut2D.new spec xs ys = .ok c → c.is_valid = false) := by
  constructor
  · constructor
    · rintro ⟨c, hc⟩
      unfold Cut2D.new at hc
      by_cases h1 : spec.y_variable = none ∨ xs.length ≠ ys.length ∨
          xs.length < 3
      · rw [if_pos h1] at hc
        cases hc
      · rw [if_neg h1] at hc
        by_cases h2 : xs.head? ≠ xs.getLast? ∨ ys.head? ≠ ys.getLast?
        · rw [if_pos h2] at hc
          cases hc
        · push_neg at h1 h2
          exact ⟨h1.1, h1.2.1, h1.2.2, h2.1, h2.2⟩
    · rintro ⟨hy, hlen, h3, hx, hys⟩
      refine ⟨⟨spec, xs, ys, false⟩, ?_⟩
      unfold Cut2D.new
      rw [if_neg (by push_neg; exact ⟨hy, hlen, h3⟩),
        if_neg (by push_neg; exact ⟨hx, hys⟩)]
  · intro c hc
    unfold Cut2D.new at hc
    by_cases h1 : spec.y_variable = none ∨ xs.length ≠ ys.length ∨
        xs.length < 3
    · rw [if_pos h1] at hc
      cases hc
    · rw [if_neg h1] at hc
      by_cases h2 : xs.head? ≠ xs.getLast? ∨ ys.head? ≠ ys.getLast?
      · rw [if_pos h2] at hc
        cases hc
      · rw [if_neg h2] at hc
        cases hc
        rfl

/-- Witness for the C9 theorem on the closed unit square. -/
theorem cut2d_new_spec_app :
    ∃ c, Cut2D.new ⟨1, "sq", "x", some "y"⟩ [0, 0, 1, 1, 0] [0, 1, 1, 0, 0] =
      .ok c :=
  (cut2d_new_spec ⟨1, "sq", "x", some "y"⟩ [0, 0, 1, 1, 0]
    [0, 1, 1, 0, 0]).1.mpr (by refine ⟨by decide, by decide, by decide, ?_, ?_⟩ <;> decide)

/-- If some listed id resolves to a registered cut whose validity is
`false`, the gating loop rejects. -/
lemma checkCuts_false_of_invalid (cuts : List (ℕ × Cut)) (ids : List ℕ)
    (cid : ℕ) (hmem : cid ∈ ids)
    (hlk : (List.lookup cid cuts).map Cut.is_valid = some false) :
    checkCuts cuts ids = false := by
  induction ids with
  | nil => cases hmem
  | cons a tl ih =>
    rcases List.mem_cons.1 hmem with rfl | htl
    · rcases hl : List.lookup cid cuts with _ | c
      · rw [hl] at hlk
        cases hlk
      · rw [hl] at hlk
        simp only [Option.map_some', Option.some.injEq] at hlk
        simp [checkCuts, hl, hlk]
    · rcases hl : List.lookup a cuts with _ | c
      · simp [checkCuts, hl, ih htl]
      · by_cases hv : c.is_valid
        · simp [checkCuts, hl, hv, ih htl]
        · simp [checkCuts, hl, hv]

/-- If every listed id is unregistered, the gating loop accepts. -/
lemma checkCuts_true_of_missing (cuts : List (ℕ × Cut)) (ids : List ℕ)
    (h : ∀ cid ∈ ids, List.lookup cid cuts = none) :
    checkCuts cuts ids = true := by
  induction ids with
  | nil => rfl
  | cons a tl ih =>
    have ha := h a (List.mem_cons_self a tl)
    simp [checkCuts, ha, ih (fun cid hc => h cid (List.mem_cons_of_mem a hc))]

/-- C1 theorem: a histogram whose check-list names a registered cut that
is invalid after the update's cut-evaluation pass keeps its count array
unchanged; and (vacuous passing) a check-list consisting only of
unregistered ids gates nothing. -/
theorem update_skips_gated_histogram (m : ResourceManager) (data : DataBlob)
    (i k : ℕ) (g : Histogram) (hg : m.histograms.get? i = some (k, g))
    (h : ∃ cid ∈ g.spec.cuts_to_check,
      (List.lookup cid
        (m.cuts.map (fun p => (p.1, p.2.is_inside data)))).map Cut.is_valid =
        some false) :
    (∃ g2 : Histogram, (m.update data).histograms.get? i = some (k, g2) ∧
      g2.data = g.data)
    ∧ (∀ (cuts : List (ℕ × Cut)) (ids : List ℕ),
        (∀ cid ∈ ids, List.lookup cid cuts = none) →
          checkCuts cuts ids = true) := by
  constructor
  · obtain ⟨cid, hmem, hlk⟩ := h
    refine ⟨updateGram (m.cuts.map (fun p => (p.1, p.2.is_inside data))) data g,
      ?_, ?_⟩
    · show (m.histograms.map _).get? i = _
      rw [List.get?_map, hg]
      rfl
    · unfold updateGram
      rw [checkCuts_false_of_invalid _ _ cid hmem hlk]
      simp
  · exact checkCuts_true_of_missing

/-- Witness for the C1 theorem: the record lacks `"x"`, so evaluation
invalidates cut `1` and histogram `7` keeps its (zero) counts even
though its own variable `"v"` is present and in range. -/
theorem update_skips_gated_histogram_app :
    ∃ g2 : Histogram,
      (mgrC1.update ⟨[("v", 1/2)]⟩).histograms.get? 0 = some (7, g2) ∧
        g2.data = histC1.data :=
  (update_skips_gated_histogram mgrC1 ⟨[("v", 1/2)]⟩ 0 7 histC1 (by decide)
    (by decide)).1

/-- C3 theorem: a 2-D fill whose two axis lookups return `bin_x` and
`bin_y` increments the counter at linear index `bin_x * bin_y` and
returns that same product. -/
theorem fill_2d_index (g : Histogram) (y_axis : AxisSpec)
    (hy : g.spec.y_axis = some y_axis) (x y : ℚ) (bin_x bin_y : ℕ)
    (hx : g.spec.x_axis.get_bin x = .ok bin_x)
    (hyb : y_axis.get_bin y = .ok bin_y) :
    (g.fill x (some y)).1 = .ok (bin_x * bin_y)
    ∧ (g.fill x (some y)).2.data =
        g.data.set (bin_x * bin_y) (g.data.getD (bin_x * bin_y) 0 + 1) := by
  refine ⟨?_, ?_⟩ <;> simp [Histogram.fill, hx, hy, hyb]

/-- Witness for the C3 theorem: `x = 3/2` lands in bin 1, `y = 5/2` in
bin 2, and the fill hits linear index `1 * 2 = 2`. -/
theorem fill_2d_index_app :
    (histC3.fill (3/2) (some (5/2))).1 = .ok (1 * 2)
    ∧ (histC3.fill (3/2) (some (5/2))).2.data =
        histC3.data.set (1 * 2) (histC3.data.getD (1 * 2) 0 + 1) :=
  fill_2d_index histC3 ⟨"w", "t", 3, 0, 3⟩ (by decide) (3/2) (5/2) 1 2
    (by decide) (by decide)

/-- C4 theorem: a successful fill increments exactly one in-bounds
counter by one and leaves every other position unchanged; a failed fill
leaves the whole count array unchanged.  The hypotheses say the
histogram's axes are valid and its array has the size allocated by
`Histogram::new`. -/
theorem fill_one_counter (g : Histogram) (x : ℚ) (yv : Option ℚ)
    (hx1 : g.spec.x_axis.minimum < g.spec.x_axis.maximum)
    (hx2 : 1 ≤ g.spec.x_axis.bins)
    (hy : ∀ ya, g.spec.y_axis = some ya →
      ya.minimum < ya.maximum ∧ 1 ≤ ya.bins)
    (hlen : g.data.length = (match g.spec.y_axis with
      | none => g.spec.x_axis.bins
      | some ya => g.spec.x_axis.bins * ya.bins)) :
    ((∃ b, (g.fill x yv).1 = .ok b) →
      ∃ i, i < g.data.length ∧
        (g.fill x yv).2.data.get? i = some (g.data.getD i 0 + 1) ∧
        ∀ j, j ≠ i → (g.fill x yv).2.data.get? j = g.data.get? j)
    ∧ (∀ e, (g.fill x yv).1 = .err e → (g.fill x yv).2.data = g.data) := by
  cases hxb : g.spec.x_axis.get_bin x with
  | err e =>
    have hfill : g.fill x yv = (.err e, g) := by
      cases yv <;> simp [Histogram.fill, hxb]
    rw [hfill]
    exact ⟨fun ⟨_, hb⟩ => (nomatch hb), fun e2 _ => rfl⟩
  | ok bin =>
    have hbin : bin < g.spec.x_axis.bins := get_bin_lt_bins _ _ _ hx1 hx2 hxb
    cases yv with
    | none =>
      cases hys : g.spec.y_axis with
      | some ya =>
        have hfill : g.fill x none = (.err .WrongDimensions, g) := by
          simp [Histogram.fill, hxb, hys]
        rw [hfill]
        exact ⟨fun ⟨_, hb⟩ => (nomatch hb), fun e2 _ => rfl⟩
      | none =>
        have hfill : g.fill x none =
            (.ok bin, ⟨g.spec, g.data.set bin (g.data.getD bin 0 + 1)⟩) := by
          simp [Histogram.fill, hxb, hys]
        simp only [hys] at hlen
        have hbl : bin < g.data.length := by rw [hlen]; exact hbin
        rw [hfill]
        refine ⟨fun _ => ⟨bin, hbl, ?_, fun j hj => ?_⟩, fun e2 he => by cases he⟩
        · exact List.get?_set_eq_of_lt _ hbl
        · exact List.get?_set_ne _ _ (Ne.symm hj)
    | some y =>
      cases hys : g.spec.y_axis with
      | none =>
        have hfill : g.fill x (some y) = (.err .WrongDimensions, g) := by
          simp [Histogram.fill, hxb, hys]
        rw [hfill]
        exact ⟨fun ⟨_, hb⟩ => (nomatch hb), fun e2 _ => rfl⟩
      | some ya =>
        cases hyb : ya.get_bin y with
        | err e =>
          have hfill : g.fill x (some y) = (.err e, g) := by
            simp [Histogram.fill, hxb, hys, hyb]
          rw [hfill]
          exact ⟨fun ⟨_, hb⟩ => (nomatch hb), fun e2 _ => rfl⟩
        | ok bin_y =>
          obtain ⟨hy1, hy2⟩ := hy ya hys
          have hbiny : bin_y < ya.bins := get_bin_lt_bins _ _ _ hy1 hy2 hyb
          have hfill : g.fill x (some y) =
              (.ok (bin * bin_y),
                ⟨g.spec, g.data.set (bin * bin_y)
                  (g.data.getD (bin * bin_y) 0 + 1)⟩) := by
            simp [Histogram.fill, hxb, hys, hyb]
          simp only [hys] at hlen
          have hbl : bin * bin_y < g.data.length := by
            rw [hlen]
            exact mul_lt_mul'' hbin hbiny (Nat.zero_le _) (Nat.zero_le _)
          rw [hfill]
          refine ⟨fun _ => ⟨bin * bin_y, hbl, ?_, fun j hj => ?_⟩,
            fun e2 he => by cases he⟩
          · exact List.get?_set_eq_of_lt _ hbl
          · exact List.get?_set_ne _ _ (Ne.symm hj)

/-- Witness for the C4 theorem: filling `1/2` increments exactly one
counter. -/
theorem fill_one_counter_app :
    ∃ i, i < histC4.data.length ∧
      (histC4.fill (1/2) none).2.data.get? i =
        some (histC4.data.getD i 0 + 1) ∧
      ∀ j, j ≠ i →
        (histC4.fill (1/2) none).2.data.get? j = histC4.data.get? j :=
  (fill_one_counter histC4 (1/2) none (by decide) (by decide)
    (fun ya h => by cases h) (by decide)).1 ⟨0, by decide⟩

/-- C10 amended theorem (exact arithmetic): a successful `get_bin` index
on a valid axis is below `bins`, and every index at which a successful
`fill` increments is below the length of a correctly allocated count
array.  Under binary32 rounding this fails (see the companion
counterexample). -/
theorem fill_access_in_bounds (a : AxisSpec) (v : ℚ) (b : ℕ) (g : Histogram)
    (x : ℚ) (yv : Option ℚ) :
    (a.minimum < a.maximum → 1 ≤ a.bins → a.get_bin v = .ok b → b < a.bins)
    ∧ (g.spec.x_axis.minimum < g.spec.x_axis.maximum →
        1 ≤ g.spec.x_axis.bins →
        (∀ ya, g.spec.y_axis = some ya →
          ya.minimum < ya.maximum ∧ 1 ≤ ya.bins) →
        g.data.length = (match g.spec.y_axis with
          | none => g.spec.x_axis.bins
          | some ya => g.spec.x_axis.bins * ya.bins) →
        ∀ bb, (g.fill x yv).1 = .ok bb → bb < g.data.length) := by
  refine ⟨fun h1 h2 hb => get_bin_lt_bins a v b h1 h2 hb,
    fun hx1 hx2 hy hlen bb hbb => ?_⟩
  cases hxb : g.spec.x_axis.get_bin x with
  | err e =>
    have hfill : g.fill x yv = (.err e, g) := by
      cases yv <;> simp [Histogram.fill, hxb]
    rw [hfill] at hbb
    cases hbb
  | ok bin =>
    have hbin : bin < g.spec.x_axis.bins := get_bin_lt_bins _ _ _ hx1 hx2 hxb
    cases yv with
    | none =>
      cases hys : g.spec.y_axis with
      | some ya =>
        have hfill : g.fill x none = (.err .WrongDimensions, g) := by
          simp [Histogram.fill, hxb, hys]
        rw [hfill] at hbb
        cases hbb
      | none =>
        have hfill : (g.fill x none).1 = .ok bin := by
          simp [Histogram.fill, hxb, hys]
        rw [hfill] at hbb
        cases hbb
        simp only [hys] at hlen
        rw [hlen]
        exact hbin
    | some y =>
      cases hys : g.spec.y_axis with
      | none =>
        have hfill : g.fill x (some y) = (.err .WrongDimensions, g) := by
          simp [Histogram.fill, hxb, hys]
        rw [hfill] at hbb
        cases hbb
      | some ya =>
        cases hyb : ya.get_bin y with
        | err e =>
          have hfill : g.fill x (some y) = (.err e, g) := by
            simp [Histogram.fill, hxb, hys, hyb]
          rw [hfill] at hbb
          cases hbb
        | ok bin_y =>
          obtain ⟨hy1, hy2⟩ := hy ya hys
          have hbiny : bin_y < ya.bins := get_bin_lt_bins _ _ _ hy1 hy2 hyb
          have hfill : (g.fill x (some y)).1 = .ok (bin * bin_y) := by
            simp [Histogram.fill, hxb, hys, hyb]
          rw [hfill] at hbb
          cases hbb
          simp only [hys] at hlen
          rw [hlen]
          exact mul_lt_mul'' hbin hbiny (Nat.zero_le _) (Nat.zero_le _)

/-- Witness for the C10 amended theorem on a concrete axis and fill. -/
theorem fill_access_in_bounds_app :
    (0 : ℕ) < axis600.bins ∧ (0 : ℕ) < histC4.data.length :=
  ⟨(fill_access_in_bounds axis600 (1/2) 0 histC4 (1/2) none).1 (by decide)
      (by decide) (by decide),
    (fill_access_in_bounds axis600 (1/2) 0 histC4 (1/2) none).2 (by decide)
      (by decide) (fun ya h => by cases h) (by decide) 0 (by decide)⟩

set_option maxRecDepth 8000 in
/-- C10 counterexample: under faithful binary32 arithmetic the valid
axis `axis7` maps the in-range value `sevenPred` to bin `3`, which is
NOT strictly less than `bins = 3`; the corresponding count array has
length 3, so `Histogram::fill` would access index 3 of a length-3
array. -/
theorem get_bin_f32_escapes_bounds :
    axis7.minimum < axis7.maximum ∧ 1 ≤ axis7.bins
    ∧ axis7.minimum ≤ sevenPred ∧ sevenPred < axis7.maximum
    ∧ axis7.get_bin_f32 sevenPred = .ok 3
    ∧ ¬ 3 < axis7.bins
    ∧ (Histogram.new ⟨11, "h", "h", axis7, none, [], []⟩).data.length = 3 := by
  decide

/-- Unfolding `List.lookup` over a cons cell. -/
lemma lookup_cons {α : Type} (a k : ℕ) (b : α) (l : List (ℕ × α)) :
    List.lookup a ((k, b) :: l) = if a = k then some b else List.lookup a l := by
  by_cases h : a = k
  · simp [List.lookup, h]
  · have hb : (a == k) = false := by simpa using h
    simp [List.lookup, hb, h]

/-- Looking up the modified key after `modifyHist` sees the modified
histogram. -/
lemma lookup_modifyHist (l : List (ℕ × Histogram)) (hid : ℕ)
    (f : Histogram → Histogram) :
    List.lookup hid (modifyHist hid f l) = (List.lookup hid l).map f := by
  induction l with
  | nil => rfl
  | cons p tl ih =>
    obtain ⟨k, g⟩ := p
    by_cases hp : k = hid
    · subst hp
      have h1 : modifyHist k f ((k, g) :: tl) = (k, f g) :: modifyHist k f tl := by
        simp [modifyHist]
      rw [h1, lookup_cons, lookup_cons]
      simp
    · have h1 : modifyHist hid f ((k, g) :: tl) = (k, g) :: modifyHist hid f tl := by
        simp [modifyHist, hp]
      have hne : ¬ hid = k := fun h => hp h.symm
      rw [h1, lookup_cons, lookup_cons, if_neg hne, if_neg hne]
      exact ih

/-- C5 amended theorem: on an unknown histogram id both registration
calls fail and leave the registry unchanged; but when the histogram
lookup succeeds and cut construction then fails, both calls return the
construction error with the cut id ALREADY appended to that histogram's
`cuts_to_draw` list, while the cut table is unchanged (no cut
registered) — the failure is not atomic. -/
theorem add_cut_partial_failure (m : ResourceManager) (spec : CutSpec)
    (low high : ℚ) (xs ys : List ℚ) (hid : ℕ) :
    (List.lookup hid m.histograms = none →
      m.add_cut_1d spec low high hid =
        (.err (.CutFailed (.NoReferenceHistogram hid)), m)
      ∧ m.add_cut_2d spec xs ys hid =
        (.err (.CutFailed (.NoReferenceHistogram hid)), m))
    ∧ (∀ g e, List.lookup hid m.histograms = some g →
        Cut1D.new spec low high = .err e →
        (m.add_cut_1d spec low high hid).1 = .err (.CutFailed e)
        ∧ (m.add_cut_1d spec low high hid).2.cuts = m.cuts
        ∧ List.lookup hid (m.add_cut_1d spec low high hid).2.histograms =
            some (pushDraw spec.id g))
    ∧ (∀ g e, List.lookup hid m.histograms = some g →
        Cut2D.new spec xs ys = .err e →
        (m.add_cut_2d spec xs ys hid).1 = .err (.CutFailed e)
        ∧ (m.add_cut_2d spec xs ys hid).2.cuts = m.cuts
        ∧ List.lookup hid (m.add_cut_2d spec xs ys hid).2.histograms =
            some (pushDraw spec.id g)) := by
  refine ⟨fun hnone => ?_, fun g e hsome herr => ?_, fun g e hsome herr => ?_⟩
  · constructor
    · unfold ResourceManager.add_cut_1d
      rw [hnone]
    · unfold ResourceManager.add_cut_2d
      rw [hnone]
  · unfold ResourceManager.add_cut_1d
    rw [hsome, herr]
    exact ⟨rfl, rfl, by rw [lookup_modifyHist, hsome]; rfl⟩
  · unfold ResourceManager.add_cut_2d
    rw [hsome, herr]
    exact ⟨rfl, rfl, by rw [lookup_modifyHist, hsome]; rfl⟩

/-- C5 counterexample: `add_cut_1d` with the invalid bounds
`low = 1 > 0 = high` on the registered histogram `10` returns an error,
yet the resulting state is NOT the original state — the cut id `5` was
appended to the histogram's `cuts_to_draw` while no cut was
registered. -/
theorem add_cut_1d_not_atomic :
    (mgrC5.add_cut_1d ⟨5, "c", "x", none⟩ 1 0 10).1 =
      .err (.CutFailed (.Invalid1D 1 0))
    ∧ (mgrC5.add_cut_1d ⟨5, "c", "x", none⟩ 1 0 10).2 ≠ mgrC5
    ∧ List.lookup 10
        (mgrC5.add_cut_1d ⟨5, "c", "x", none⟩ 1 0 10).2.histograms =
        some ⟨⟨10, "h", "h", ⟨"v", "t", 3, 0, 3⟩, none, [5], []⟩, [0, 0, 0]⟩
    ∧ List.lookup 5 (mgrC5.add_cut_1d ⟨5, "c", "x", none⟩ 1 0 10).2.cuts =
        none := by
  decide

/-- Witness for the C5 amended theorem at the concrete registry
`mgrC5`. -/
theorem add_cut_partial_failure_app :
    (mgrC5.add_cut_1d ⟨6, "c", "x", none⟩ 2 0 10).1 =
      .err (.CutFailed (.Invalid1D 2 0))
    ∧ (mgrC5.add_cut_1d ⟨6, "c", "x", none⟩ 2 0 10).2.cuts = mgrC5.cuts
    ∧ List.lookup 10
        (mgrC5.add_cut_1d ⟨6, "c", "x", none⟩ 2 0 10).2.histograms =
        some (pushDraw 6 histC5) :=
  (add_cut_partial_failure mgrC5 ⟨6, "c", "x", none⟩ 2 0 [] [] 10).2.1
    histC5 (.Invalid1D 2 0) (by decide) (by decide)

/-- Parity of a successor. -/
lemma parity_succ (c : ℕ) : ((c + 1) % 2 == 1) = !(c % 2 == 1) := by
  rcases Nat.mod_two_eq_zero_or_one c with h | h <;>
    simp [Nat.add_mod, h]

/-- The early-exit loop equals the hit-or-parity form, for any initial
accumulator. -/
lemma polyLoop_eq (x y : ℚ) (es : List ((ℚ × ℚ) × (ℚ × ℚ))) (acc : Bool) :
    polyLoop x y es acc =
      (es.any (vertexOrEdgeHit x y) ||
        (xor acc ((es.countP (edgeToggles x y)) % 2 == 1))) := by
  induction es generalizing acc with
  | nil => simp [polyLoop]
  | cons e tl ih =>
    by_cases h1 : x = e.1.1 ∧ y = e.1.2
    · simp [polyLoop, h1, vertexOrEdgeHit]
    · by_cases h2 : slopeOf x y e = 0
      · simp [polyLoop, h1, h2, vertexOrEdgeHit]
      · have hhit : vertexOrEdgeHit x y e = false := by
          simp [vertexOrEdgeHit, h1, h2]
        by_cases h3 : edgeToggles x y e = true
        · have hstep : polyLoop x y (e :: tl) acc = polyLoop x y tl (!acc) := by
            simp only [polyLoop, if_neg h1, if_neg h2]
            rw [if_pos (by simpa [edgeToggles] using h3)]
          rw [hstep, ih]
          simp only [List.any_cons, hhit, Bool.false_or,
            List.countP_cons, h3, if_pos, parity_succ]
          cases acc <;> cases (tl.countP (edgeToggles x y)) % 2 == 1 <;>
            cases tl.any (vertexOrEdgeHit x y) <;> rfl
        · have h3f : edgeToggles x y e = false := by
            simpa using h3
          have hstep : polyLoop x y (e :: tl) acc = polyLoop x y tl acc := by
            simp only [polyLoop, if_neg h1, if_neg h2]
            rw [if_neg (by simpa [edgeToggles] using h3)]
          rw [hstep, ih]
          simp [List.any_cons, hhit, List.countP_cons, h3f]

/-- C7 amended theorem: `Cut2D::is_inside` computes exactly the spec's
§4.3 even-odd algorithm whenever both variables are present, and on the
closed unit square the points `(1/2, 1/2)`, `(0, 0)` AND `(2, 2)` are
all classified inside — the toggle condition lacks a ray-straddle test,
so the exterior point `(2, 2)` is misclassified relative to the true
even-odd rule. -/
theorem cut2d_is_inside_even_odd (c : Cut2D) (blob : DataBlob)
    (y_name : String) (x y : ℚ) (h1 : c.spec.y_variable = some y_name)
    (h2 : blob.find c.spec.x_variable = some x)
    (h3 : blob.find y_name = some y) :
    (c.is_inside blob).is_valid = specEvenOdd x y c.x_values c.y_values
    ∧ (squareCut.is_inside blobHalf).is_valid = true
    ∧ (squareCut.is_inside blobOrigin).is_valid = true
    ∧ (squareCut.is_inside blobTwoTwo).is_valid = true := by
  refine ⟨?_, by decide, by decide, by decide⟩
  simp only [Cut2D.is_inside, h1, h2, h3]
  rw [polyLoop_eq]
  simp [specEvenOdd]

/-- C7 counterexample: the claim asserts the exterior point `(2, 2)` is
classified outside the closed unit square; the code classifies it
inside (validity `true`). -/
theorem cut2d_two_two_not_outside :
    ¬ (squareCut.is_inside blobTwoTwo).is_valid = false := by
  decide

/-- Witness for the C7 amended theorem at the square and `(1/2, 1/2)`. -/
theorem cut2d_is_inside_even_odd_app :
    (squareCut.is_inside blobHalf).is_valid =
      specEvenOdd (1/2) (1/2) squareCut.x_values squareCut.y_values :=
  (cut2d_is_inside_even_odd squareCut blobHalf "y" (1/2) (1/2) (by decide)
    (by decide) (by decide)).1

end Spect
